import Mathlib

/-!
Shallow embedding of the mountebank-redis-repository stub-storage core
(src/src/ImposterStorage.ts, src/src/stubRepository.ts, src/src/wrap.ts,
src/src/RedisClient.js and the repository facade in src/src/index).

Modelling conventions:
* Redis hash collections (`hset`/`hget`/`hdel` on a named hash) are
  association lists keyed by a decidable key type.
* Generated identifiers `{prefix}-{epochMillis}-{pid}-{counter}` are modelled
  by the strictly increasing in-process counter value alone (a `Nat`); this
  preserves exactly the uniqueness the counter suffix provides.
* JavaScript numbers that can become `NaN` (the `nextIndex` cursor after a
  modulo by zero) are modelled by `JsNum`.
* Opaque JSON payloads (predicates, response bodies, match entries) are
  modelled by `Nat` stand-ins; the code never inspects them.
* Asynchronous store round-trips always succeed in the model; the
  `try/catch` soft-`null` conversions for store failures are therefore not
  reachable and the `throw` paths are modelled with `Except`.
-/

namespace MountebankRedis

/-- Opaque predicate object (passed through unevaluated by this core). -/
abbrev Predicate := Nat

/-- Opaque match-log entry (`StubMatch`). -/
abbrev StubMatch := Nat

/-- A mountebank response object. `isField` models the optional `is` key:
`none` = no `is` key, `some none` = `is: {}` (the empty is-response),
`some (some k)` = `is` with opaque payload `k`. `rep` models the optional
`repeat` count. All other fields are opaque to the storage layer. -/
structure MbResponse where
  isField : Option (Option Nat) := none
  rep : Option Nat := none
  deriving DecidableEq, Repr

/-- The empty `{ is: {} }` response shape used by wrap.ts for the no-op
handle and for `createResponse()` without a config. -/
def emptyIsResponse : MbResponse := { isField := some none, rep := none }

/-- `repeatsFor` (ImposterStorage.ts line 39): `response.repeat || 1` —
any falsy `repeat` (absent or 0) yields 1. -/
def repeatsFor (response : MbResponse) : Nat :=
  match response.rep with
  | some k => if k = 0 then 1 else k
  | none => 1

/-- JavaScript number restricted to the values `nextIndex` can take:
a non-negative integer or `NaN` (produced by `x % 0`). -/
inductive JsNum where
  | nan
  | num (n : Nat)
  deriving DecidableEq, Repr

/-- JavaScript `x + 1` (NaN propagates). -/
def JsNum.add1 : JsNum → JsNum
  | .nan => .nan
  | .num n => .num (n + 1)

/-- JavaScript `x % m` for a non-negative integer `m`: `x % 0` is `NaN`,
and NaN propagates. -/
def JsNum.modNat : JsNum → Nat → JsNum
  | .nan, _ => .nan
  | .num a, m => if m = 0 then .nan else .num (a % m)

/-- JavaScript array indexing `l[x]`: indexing with `NaN` (or out of
range) yields `undefined`, modelled as `none`. -/
def jsIndex (l : List α) : JsNum → Option α
  | .nan => none
  | .num n => l.get? n

/-- `StubMeta` (src/src/types): the per-stub cycling record. -/
structure StubMeta where
  responseIds : List Nat
  orderWithRepeats : List Nat
  nextIndex : JsNum
  deriving DecidableEq, Repr

/-- The `meta: { id }` reference embedded in a stored stub definition. -/
structure StubMetaRef where
  id : Nat
  deriving DecidableEq, Repr

/-- `StubDefinition`: the stripped stub stored inside the imposter record
(meta reference plus optional predicates; responses live separately). -/
structure StubDefinition where
  meta : StubMetaRef
  predicates : Option (List Predicate) := none
  deriving DecidableEq, Repr

/-- An incoming stub as supplied by the caller (predicates optional,
responses optional — `stub.responses || []`). -/
structure Stub where
  predicates : Option (List Predicate) := none
  responses : Option (List MbResponse) := none
  deriving DecidableEq, Repr

/-- `ImposterConfig`: the persisted imposter root record. `extra` stands in
for the opaque protocol-specific configuration fields. -/
structure ImposterConfig where
  port : Nat
  protocol : String
  extra : Nat := 0
  stubs : List StubDefinition
  deriving DecidableEq, Repr

/-- Generic Redis hash field read (`hget` + `JSON.parse`): `none` models
the `null` returned for a missing field. -/
def hget [DecidableEq K] (m : List (K × V)) (k : K) : Option V :=
  (m.find? (fun p => decide (p.1 = k))).map Prod.snd

/-- Generic Redis hash field write (`hset` with `JSON.stringify`):
replaces any previous value at the key. -/
def hset [DecidableEq K] (m : List (K × V)) (k : K) (v : V) : List (K × V) :=
  (k, v) :: m.filter (fun p => !decide (p.1 = k))

/-- Generic Redis hash field delete (`hdel`). -/
def hdel [DecidableEq K] (m : List (K × V)) (k : K) : List (K × V) :=
  m.filter (fun p => !decide (p.1 = k))

/-- The shared store: one hash collection per `ENTITY_IDS` member, plus the
in-process id-generation counter of `ImposterStorage`. Meta records are
keyed by `[imposterId, stubId].join(':')`, modelled as the pair. -/
structure Store where
  imposters : List (Nat × ImposterConfig) := []
  metas : List ((Nat × Nat) × StubMeta) := []
  responses : List (Nat × MbResponse) := []
  matchLists : List (Nat × List StubMatch) := []
  requestCounters : List (Nat × Nat) := []
  idCounter : Nat := 0
  deriving DecidableEq, Repr

/-- `_generateId` (ImposterStorage.ts line 63): returns a fresh id and the
store with the counter advanced. -/
def generateId (st : Store) : Nat × Store :=
  (st.idCounter, { st with idCounter := st.idCounter + 1 })

/-- `saveImposter` (line 69): upserts the root record keyed by port. The
`imposter_change` publication is modelled separately (see `publishData`). -/
def saveImposter (st : Store) (imposter : ImposterConfig) : Store :=
  { st with imposters := hset st.imposters imposter.port imposter }

/-- `getImposter` (line 105). -/
def getImposter (st : Store) (imposterId : Nat) : Option ImposterConfig :=
  hget st.imposters imposterId

/-- `getStubs` (line 138): imposter's stub list, `[]` if the imposter is
missing (the stubs field is always an array in the model). -/
def getStubs (st : Store) (imposterId : Nat) : List StubDefinition :=
  match hget st.imposters imposterId with
  | none => []
  | some imposter => imposter.stubs

/-- `getResponses` (line 190): resolves the meta's `responseIds` in order
and drops records that no longer exist (`filter(Boolean)`). -/
def getResponses (st : Store) (imposterId stubId : Nat) : List MbResponse :=
  match hget st.metas (imposterId, stubId) with
  | none => []
  | some meta => (meta.responseIds.map (fun rid => hget st.responses rid)).filterMap id

/-- `incrementRequestCounter` (line 297) via `hincrby` (missing field
counts as 0). -/
def incrementRequestCounter (st : Store) (imposterId : Nat) : Store :=
  { st with requestCounters :=
      (hset st.requestCounters imposterId ((hget st.requestCounters imposterId).getD 0 + 1)) }

/-- Meta append of `addResponse` (lines 396-400): push the new response id,
then push its index `repeatsFor` times onto `orderWithRepeats`; the index
is the length of `responseIds` before the push. -/
def addResponseMeta (meta : StubMeta) (responseId : Nat) (response : MbResponse) : StubMeta :=
  { meta with
    responseIds := meta.responseIds ++ [responseId],
    orderWithRepeats :=
      meta.orderWithRepeats ++ List.replicate (repeatsFor response) meta.responseIds.length }

/-- `addResponse` (line 388): `null` (and no write) if the stub's meta is
missing; otherwise saves the response, appends to the meta and saves it. -/
def addResponse (st : Store) (imposterId stubId : Nat) (response : MbResponse) :
    Option StubMeta × Store :=
  match hget st.metas (imposterId, stubId) with
  | none => (none, st)
  | some meta =>
    let p := generateId st
    let st2 := { p.2 with responses := hset p.2.responses p.1 response }
    let meta2 := addResponseMeta meta p.1 response
    (some meta2, { st2 with metas := hset st2.metas (imposterId, stubId) meta2 })

/-- Cursor advance of `getNextResponse` (line 416):
`nextIndex = (nextIndex + 1) % maxIndex`. -/
def advanceMeta (meta : StubMeta) : StubMeta :=
  { meta with nextIndex := meta.nextIndex.add1.modNat meta.orderWithRepeats.length }

/-- `getNextResponse` (line 405): throws if no meta exists; otherwise
computes `orderWithRepeats[nextIndex % maxIndex]`, resolves response index
to id to record, persists the advanced meta, and returns the resolved
response (`none` when any step yields `undefined`/`null`). -/
def getNextResponse (st : Store) (imposterId stubId : Nat) :
    Except String (Option MbResponse × Store) :=
  match hget st.metas (imposterId, stubId) with
  | none => .error ("GET_NEXT_RESPONSE_ERROR, no meta for stubId " ++ toString stubId)
  | some meta =>
    let maxIndex := meta.orderWithRepeats.length
    let responseIndex := jsIndex meta.orderWithRepeats (meta.nextIndex.modNat maxIndex)
    let responseId := responseIndex.bind (fun ri => meta.responseIds.get? ri)
    let st2 := { st with metas := hset st.metas (imposterId, stubId) (advanceMeta meta) }
    .ok (responseId.bind (fun rid => hget st2.responses rid), st2)

/-- The response-saving loop of `saveStubMetaAndResponses` (lines 442-450):
`i` is the loop index, each response is persisted under a fresh id which is
pushed onto the meta together with `repeatsFor` copies of `i`. -/
def saveResponsesLoop : List MbResponse → Store → Nat → StubMeta → StubMeta × Store
  | [], st, _, meta => (meta, st)
  | r :: rest, st, i, meta =>
    let p := generateId st
    let st2 := { p.2 with responses := hset p.2.responses p.1 r }
    saveResponsesLoop rest st2 (i + 1)
      { meta with
        responseIds := meta.responseIds ++ [p.1],
        orderWithRepeats := meta.orderWithRepeats ++ List.replicate (repeatsFor r) i }

/-- `saveStubMetaAndResponses` (line 424): generates a stub id, persists
every response, builds and persists the meta, and returns the stripped
definition. The TS `if (!stub) return` null-input guard is not
representable (the argument is always a `Stub` here). -/
def saveStubMetaAndResponses (st : Store) (imposterId : Nat) (stub : Stub) :
    StubDefinition × Store :=
  let p := generateId st
  let stubDefinition : StubDefinition := { meta := ⟨p.1⟩, predicates := stub.predicates }
  let q := saveResponsesLoop (stub.responses.getD []) p.2 0 ⟨[], [], .num 0⟩
  (stubDefinition, { q.2 with metas := hset q.2.metas (imposterId, p.1) q.1 })

/-- Typed failure raised by `errors.MissingResourceError`. -/
inductive RepoError where
  | missingResource (message : String)
  deriving DecidableEq, Repr

/-- `_deleteStub` (line 350): deletes every response referenced by the
stub's meta, the meta itself, and the stub's match list. The TS
`if (!stubId) return` guards against an empty-string id, which generated
ids never are. -/
def deleteStubCascade (st : Store) (imposterId stubId : Nat) : Store :=
  let st1 :=
    match hget st.metas (imposterId, stubId) with
    | none => st
    | some meta =>
      let st' := { st with responses := meta.responseIds.foldl (fun r rid => hdel r rid) st.responses }
      { st' with metas := hdel st'.metas (imposterId, stubId) }
  { st1 with matchLists := hdel st1.matchLists stubId }

/-- JavaScript `splice(index, 0, a)` insertion: an index beyond the end
inserts at the end. -/
def insertClamped (a : α) : List α → Nat → List α
  | l, 0 => a :: l
  | [], _ + 1 => [a]
  | x :: xs, i + 1 => x :: insertClamped a xs i

/-- `deleteStubAtIndex` (line 330): silently returns if the imposter is
missing; throws `MissingResourceError` if no stub exists at the index;
otherwise splices the stub out, cascades deletion of its records, and
re-saves the imposter. -/
def deleteStubAtIndex (st : Store) (imposterId : Nat) (index : Nat) :
    Except RepoError Store :=
  match hget st.imposters imposterId with
  | none => .ok st
  | some imposter =>
    match imposter.stubs.get? index with
    | none => .error (.missingResource ("no stub at index " ++ toString index))
    | some deletedStub =>
      let st1 := deleteStubCascade st imposterId deletedStub.meta.id
      .ok (saveImposter st1 { imposter with stubs := imposter.stubs.eraseIdx index })

/-- `addStub` (line 308): no-op if the imposter is missing; saves the stub
records and inserts the returned definition at the end (no index) or by
`splice(index, 0, def)`. -/
def addStub (st : Store) (imposterId : Nat) (stub : Stub) (index : Option Nat) : Store :=
  match hget st.imposters imposterId with
  | none => st
  | some imposter =>
    let p := saveStubMetaAndResponses st imposterId stub
    let stubs' :=
      match index with
      | none => imposter.stubs ++ [p.1]
      | some i => insertClamped p.1 imposter.stubs i
    saveImposter p.2 { imposter with stubs := stubs' }

/-- Defunctionalized `stubIndex` accessor attached to an outgoing
response: the no-match sentinel's `() => Promise.resolve(0)`, or the
`getStubIndex` closure capturing the stub id (wrap.ts lines 14, 23). -/
inductive StubIndexFn where
  | constZero
  | currentIndexOf (stubId : Nat)
  deriving DecidableEq, Repr

/-- An outgoing response as produced by `createResponse` / the sentinel
handle: the (cloned) response config plus the `stubIndex` accessor. -/
structure OutgoingResponse where
  config : MbResponse
  stubIndex : StubIndexFn
  deriving DecidableEq, Repr

/-- `getStubIndex` (wrap.ts line 31): re-scans the current imposter's stub
sequence for the captured stub id; 0 when absent; throws when the imposter
cannot be loaded. -/
def getStubIndex (st : Store) (imposterId stubId : Nat) : Except String Nat :=
  match hget st.imposters imposterId with
  | none => .error ("Something weird. Imposter without stubs")
  | some imposter =>
    match imposter.stubs.findIdx? (fun sd => decide (sd.meta.id = stubId)) with
    | some i => .ok i
    | none => .ok 0

/-- Resolution of a `stubIndex` accessor against the store current at the
moment it is invoked. -/
def StubIndexFn.resolve : StubIndexFn → Store → Nat → Except String Nat
  | .constZero, _, _ => .ok 0
  | .currentIndexOf stubId, st, imposterId => getStubIndex st imposterId stubId

/-- A wrapped stub handle (wrap.ts): the no-match sentinel (`wrap` of
`undefined`) or a real handle capturing the stub id and the cloned
predicates (the `meta` field is stripped from the public view). -/
inductive WrappedStub where
  | noop
  | stubHandle (stubId : Nat) (predicates : Option (List Predicate))
  deriving DecidableEq, Repr

/-- `wrap` (wrap.ts line 4). -/
def wrap : Option StubDefinition → WrappedStub
  | none => .noop
  | some sd => .stubHandle sd.meta.id sd.predicates

/-- `nextResponse` of a handle (wrap.ts lines 12-15 and 47-56): the
sentinel immediately yields the empty is-response with a constant-zero
`stubIndex`; a real handle delegates to `getNextResponse` (propagating its
throw), increments the request counter, and wraps the resolved config
(defaulting to the empty is-response) with the `getStubIndex` closure. -/
def WrappedStub.nextResponse : WrappedStub → Store → Nat → Except String (OutgoingResponse × Store)
  | .noop, st, _ => .ok (⟨emptyIsResponse, .constZero⟩, st)
  | .stubHandle stubId _, st, imposterId =>
    match getNextResponse st imposterId stubId with
    | .error e => .error e
    | .ok (cfg, st1) =>
      .ok (⟨cfg.getD emptyIsResponse, .currentIndexOf stubId⟩, incrementRequestCounter st1 imposterId)

/-- `m` successive `nextResponse()` calls on a handle, collecting the
returned response configs. -/
def nextResponses (w : WrappedStub) (imposterId : Nat) : Nat → Store → Except String (List MbResponse × Store)
  | 0, st => .ok ([], st)
  | m + 1, st =>
    match w.nextResponse st imposterId with
    | .error e => .error e
    | .ok (out, st1) =>
      match nextResponses w imposterId m st1 with
      | .error e => .error e
      | .ok (rest, st2) => .ok (out.config :: rest, st2)

/-- The scan loop of `first` (stubRepository.ts lines 41-45) applied to
the suffix of the stub list starting at `startIndex`. -/
def firstScan (filter : List Predicate → Bool) : List StubDefinition → Option StubDefinition
  | [] => none
  | sd :: rest => if filter (sd.predicates.getD []) then some sd else firstScan filter rest

/-- `first` (stubRepository.ts line 32): linear scan of the current stub
list from `startIndex`, applying the filter to each stub's predicate list
(defaulting to `[]`); the first match wins, otherwise the no-op handle. -/
def first (st : Store) (imposterId : Nat) (filter : List Predicate → Bool) (startIndex : Nat) :
    Bool × WrappedStub :=
  match firstScan filter ((getStubs st imposterId).drop startIndex) with
  | some sd => (true, wrap (some sd))
  | none => (false, wrap none)

/-- `overwriteAtIndex` (stubRepository.ts line 97): delete-then-insert;
the deletion's `MissingResourceError` aborts before the insert runs. -/
def overwriteAtIndex (st : Store) (imposterId : Nat) (stub : Stub) (index : Nat) :
    Except RepoError Store :=
  match deleteStubAtIndex st imposterId index with
  | .error e => .error e
  | .ok st1 => .ok (addStub st1 imposterId stub (some index))

/-- An outgoing stub as projected by `toJSON` (stubRepository.ts line 109):
the definition minus `meta`, joined with the resolved responses, and with
the match list only when `debug` was requested and the list exists. -/
structure OutgoingStub where
  predicates : Option (List Predicate) := none
  responses : List MbResponse
  matchList : Option (List StubMatch) := none
  deriving DecidableEq, Repr

/-- `toJSON` (stubRepository.ts line 109): `[]` if the imposter is
missing; otherwise each stored stub stripped of `meta` and joined with its
resolved responses (and match list under `debug`). -/
def toJSON (st : Store) (imposterId : Nat) (debug : Bool) : List OutgoingStub :=
  match hget st.imposters imposterId with
  | none => []
  | some imposter =>
    imposter.stubs.map (fun sd =>
      { predicates := sd.predicates,
        responses := getResponses st imposterId sd.meta.id,
        matchList := if debug then hget st.matchLists sd.meta.id else none })

/-- The creation request carried by an incoming imposter: `extra` stands
in for the opaque scalar fields (name, url, recordRequests, ...);
`requests` is stripped by `add`. -/
structure ImposterCreationRequest where
  port : Nat
  protocol : String
  extra : Nat := 0
  requests : Option Nat := none
  stubs : Option (List Stub) := none
  deriving DecidableEq, Repr

/-- The outgoing imposter returned by the facade's `get`: the rehydrated
config with the stubs replaced by the `toJSON` projection. -/
structure OutgoingImposter where
  port : Nat
  protocol : String
  extra : Nat := 0
  stubs : List OutgoingStub
  deriving DecidableEq, Repr

/-- The repository facade's state: the shared store plus this process's
in-memory `imposterFns` table. Only the keys matter to the model (the
values are opaque callback closures), so each entry's value is `Unit`. -/
structure RepoState where
  store : Store := {}
  imposterFns : List (Nat × Unit) := []
  deriving DecidableEq, Repr

/-- `addReference` (facade line 523): records the imposter's behavior
functions in the in-memory table keyed by `String(imposter.port)`. -/
def addReference (rs : RepoState) (port : Nat) : RepoState :=
  { rs with imposterFns := hset rs.imposterFns port () }

/-- The `Promise.all` over `saveStubMetaAndResponses` in the facade's
`add`: id generation is synchronous in the source, so the saves serialize
in array order. -/
def saveStubsLoop : List Stub → Store → Nat → List StubDefinition × Store
  | [], st, _ => ([], st)
  | s :: rest, st, imposterId =>
    let p := saveStubMetaAndResponses st imposterId s
    let q := saveStubsLoop rest p.2 imposterId
    (p.1 :: q.1, q.2)

/-- The facade's `add` (line 551): persists every stub's records, builds
the root config from the creation request with `requests` stripped and the
stubs replaced by the returned definitions, saves it, and records the
behavior functions. -/
def repoAdd (rs : RepoState) (req : ImposterCreationRequest) : RepoState :=
  let p := saveStubsLoop (req.stubs.getD []) rs.store req.port
  let config : ImposterConfig :=
    { port := req.port, protocol := req.protocol, extra := req.extra, stubs := p.1 }
  addReference { rs with store := saveImposter p.2 config } req.port

/-- The facade's `get` (line 580): `null` when the root record is absent;
otherwise rehydrates (which evaluates `Object.keys(imposterFns[id])` and
therefore throws a TypeError when this process holds no reference for the
id — the surrounding catch turns that into a rejection) and attaches the
`toJSON` stub projection. -/
def repoGet (rs : RepoState) (id : Nat) : Except String (Option OutgoingImposter) :=
  match hget rs.store.imposters id with
  | none => .ok none
  | some imposter =>
    match hget rs.imposterFns id with
    | none => .error ("TypeError: Cannot convert undefined or null to object")
    | some _ =>
      .ok (some { port := imposter.port, protocol := imposter.protocol,
                  extra := imposter.extra, stubs := toJSON rs.store id false })

/-- The facade's `exists` (line 619):
`Object.keys(imposterFns).indexOf(String(id)) >= 0` — a pure membership
test on the in-memory table. -/
def repoExists (rs : RepoState) (id : Nat) : Bool :=
  rs.imposterFns.any (fun p => decide (p.1 = id))

/-- The facade's `shutdown` (line 623): removes the id's entry from the
in-memory table (and invokes the opaque `stop` callback, not modelled);
a no-op when the entry is absent. -/
def repoShutdown (rs : RepoState) (id : Nat) : RepoState :=
  { rs with imposterFns := hdel rs.imposterFns id }

/-- The message body built by `_publish` (RedisClient.js lines 137-148):
`{ _clientId, payload }`; serialization to JSON and back is modelled
structurally. -/
structure PubSubMessage (P : Type) where
  clientId : String
  payload : P
  deriving DecidableEq, Repr

/-- `publish` (RedisClient.js line 152): tags the payload with this
client's origin identifier. -/
def publishData (clientId : String) (payload : P) : PubSubMessage P :=
  ⟨clientId, payload⟩

/-- `wrapCallbackFn` (RedisClient.js lines 180-191): parses a delivered
message and invokes the registered callback with the payload only when the
embedded `_clientId` differs from this client's own; `some` carries the
callback's result, `none` means the message was filtered out. -/
def wrapCallbackFn (selfClientId : String) (callbackFn : P → A) (msg : PubSubMessage P) :
    Option A :=
  if msg.clientId ≠ selfClientId then some (callbackFn msg.payload) else none

/-- The list of ids generated by `n` consecutive `_generateId` calls
starting at counter value `c`. -/
def idsFrom (c : Nat) : Nat → List Nat
  | 0 => []
  | n + 1 => c :: idsFrom (c + 1) n

/-- The `orderWithRepeats` contents built by the save loop starting at
loop index `i`: `repeatsFor r_0` copies of `i`, then `repeatsFor r_1`
copies of `i+1`, and so on. -/
def orderFrom (i : Nat) : List MbResponse → List Nat
  | [] => []
  | r :: rest => List.replicate (repeatsFor r) i ++ orderFrom (i + 1) rest

/-- The repeat-expanded response sequence: each response repeated
`repeatsFor` times consecutively, in declaration order. -/
def expandRepeats : List MbResponse → List MbResponse
  | [] => []
  | r :: rest => List.replicate (repeatsFor r) r ++ expandRepeats rest

/-- A store in which the stub's meta holds the given `responseIds` and the
repeat-expansion order with cursor `c`, and the stored `responseIds`
resolve pointwise to the declared response list. -/
def GoodState (st : Store) (imposterId stubId : Nat) (ids : List Nat) (rs : List MbResponse) (c : Nat) : Prop :=
  hget st.metas (imposterId, stubId) = some ⟨ids, orderFrom 0 rs, .num c⟩ ∧
  ∀ ri, (ids.get? ri).bind (fun rid => hget st.responses rid) = rs.get? ri

/-- The meta records reachable through the storage operations: created by
`saveStubMetaAndResponses` (whose loop produces the stored meta), then
transformed by `addResponse` appends and `getNextResponse` cursor
advances. -/
inductive MetaReach : StubMeta → Prop
  | created (st : Store) (stub : Stub) :
      MetaReach (saveResponsesLoop (stub.responses.getD []) st 0 ⟨[], [], .num 0⟩).1
  | addResp (meta : StubMeta) (rid : Nat) (r : MbResponse) :
      MetaReach meta → MetaReach (addResponseMeta meta rid r)
  | advanced (meta : StubMeta) :
      MetaReach meta → MetaReach (advanceMeta meta)

/-- Sample response with payload 0 and `repeat: 2`. -/
def respA : MbResponse := { isField := some (some 0), rep := some 2 }

/-- Sample response with payload 1 and no `repeat`. -/
def respB : MbResponse := { isField := some (some 1) }

/-- Sample meta: two responses, the second repeated twice, cursor at 2. -/
def wMeta1 : StubMeta := ⟨[10, 11], [0, 1, 1], .num 2⟩

/-- Sample store holding `wMeta1` for stub 2 of imposter 1 and its two
response records. -/
def wStore1 : Store := { metas := [((1, 2), wMeta1)], responses := [(10, respA), (11, respB)] }

/-- Sample stub declaring `[respA (repeat 2), respB]`. -/
def wStub2 : Stub := { responses := some [respA, respB] }

/-- Sample store holding an empty meta (zero-response stub) for stub 5 of
imposter 1. -/
def wStore9 : Store := { metas := [((1, 5), ⟨[], [], .num 0⟩)] }

/-- Sample imposter with a single stub. -/
def wImp5 : ImposterConfig := { port := 1, protocol := "http", stubs := [⟨⟨3⟩, none⟩] }

/-- Sample store holding `wImp5`. -/
def wStore5 : Store := { imposters := [(1, wImp5)] }

/-- Sample stub definition with one predicate. -/
def wSd0 : StubDefinition := ⟨⟨3⟩, some [7]⟩

/-- Sample stub definition with no predicates. -/
def wSd1 : StubDefinition := ⟨⟨5⟩, none⟩

/-- Sample imposter with two stubs. -/
def wImp7 : ImposterConfig := { port := 1, protocol := "http", stubs := [wSd0, wSd1] }

/-- Sample store holding `wImp7`. -/
def wStore7 : Store := { imposters := [(1, wImp7)] }

/-- Sample imposter persisted in the shared store. -/
def cImp : ImposterConfig := { port := 1, protocol := "http", stubs := [] }

/-- Facade state whose shared store holds `cImp` while the in-memory
function table is empty — the state another process's `add` leaves this
process in before any change notification arrives. -/
def cRepo : RepoState := { store := { imposters := [(1, cImp)] }, imposterFns := [] }

/-- Sample creation request. -/
def wReq : ImposterCreationRequest := { port := 9, protocol := "http" }

-- ####################################################################
-- Helper lemmas
-- ####################################################################

theorem find?_filter_keep {α : Type u} (pred q : α → Bool)
    (himp : ∀ p, pred p = true → q p = true) :
    ∀ l : List α, (l.filter q).find? pred = l.find? pred := by
  intro l
  induction l with
  | nil => rfl
  | cons a t ih =>
    cases hq : q a with
    | true =>
      rw [List.filter_cons_of_pos hq]
      cases hp : pred a with
      | true => rw [List.find?_cons_of_pos _ hp, List.find?_cons_of_pos _ hp]
      | false => rw [List.find?_cons_of_neg _ (by simp [hp]), List.find?_cons_of_neg _ (by simp [hp]), ih]
    | false =>
      have hp : pred a = false := by
        cases hpa : pred a with
        | true => exact absurd (himp a hpa) (by simp [hq])
        | false => rfl
      rw [List.filter_cons_of_neg (by simp [hq]), List.find?_cons_of_neg _ (by simp [hp]), ih]

theorem hget_hset_same [DecidableEq K] (m : List (K × V)) (k : K) (v : V) :
    hget (hset m k v) k = some v := by
  simp [hget, hset, List.find?_cons_of_pos]

theorem hget_hset_ne [DecidableEq K] (m : List (K × V)) (k k' : K) (v : V) (h : k' ≠ k) :
    hget (hset m k v) k' = hget m k' := by
  unfold hget hset
  rw [List.find?_cons_of_neg _ (by simp [Ne.symm h])]
  exact congrArg (Option.map Prod.snd)
    (find?_filter_keep (fun p => decide (p.1 = k')) (fun p => !decide (p.1 = k))
      (fun p hp => by
        simp only [decide_eq_true_eq] at hp
        simp [hp, h]) m)

theorem get?_replicate (a : α) (k j : Nat) :
    (List.replicate k a).get? j = if j < k then some a else none := by
  induction k generalizing j with
  | zero => simp
  | succ k ih =>
    cases j with
    | zero => simp [List.replicate]
    | succ j => simpa [List.replicate, Nat.succ_lt_succ_iff] using ih j

theorem idsFrom_get? (c n j : Nat) :
    (idsFrom c n).get? j = if j < n then some (c + j) else none := by
  induction n generalizing c j with
  | zero => simp [idsFrom]
  | succ n ih =>
    cases j with
    | zero => simp [idsFrom]
    | succ j =>
      simp only [idsFrom, List.get?_cons_succ, ih (c + 1) j, Nat.succ_lt_succ_iff]
      have : c + 1 + j = c + (j + 1) := by omega
      rw [this]

theorem idsFrom_length (c n : Nat) : (idsFrom c n).length = n := by
  induction n generalizing c with
  | zero => rfl
  | succ n ih => simp [idsFrom, ih]

theorem repeatsFor_pos (r : MbResponse) : 0 < repeatsFor r := by
  unfold repeatsFor
  cases r.rep with
  | none => exact Nat.one_pos
  | some k =>
    by_cases hk : k = 0
    · simp [hk]
    · simpa [hk] using Nat.pos_of_ne_zero hk

theorem orderFrom_length (i : Nat) (rs : List MbResponse) :
    (orderFrom i rs).length = (expandRepeats rs).length := by
  induction rs generalizing i with
  | nil => rfl
  | cons r rest ih => simp [orderFrom, expandRepeats, ih]

theorem orderFrom_ne_nil (i : Nat) (rs : List MbResponse) (h : rs ≠ []) :
    orderFrom i rs ≠ [] := by
  cases rs with
  | nil => exact absurd rfl h
  | cons r rest =>
    simp only [orderFrom]
    intro hcontra
    have := congrArg List.length hcontra
    simp at this
    exact absurd this.1 (Nat.pos_iff_ne_zero.mp (repeatsFor_pos r))

theorem orderFrom_mem_ge (i : Nat) (rs : List MbResponse) :
    ∀ x ∈ orderFrom i rs, i ≤ x := by
  induction rs generalizing i with
  | nil => intro x hx; simp [orderFrom] at hx
  | cons r rest ih =>
    intro x hx
    simp only [orderFrom, List.mem_append, List.mem_replicate] at hx
    rcases hx with ⟨-, rfl⟩ | hx
    · exact le_refl x
    · exact Nat.le_of_succ_le (ih (i + 1) x hx)

theorem orderFrom_expand (rs : List MbResponse) :
    ∀ i j, ((orderFrom i rs).get? j).bind (fun ri => rs.get? (ri - i)) =
      (expandRepeats rs).get? j := by
  induction rs with
  | nil => intro i j; simp [orderFrom, expandRepeats]
  | cons r rest ih =>
    intro i j
    by_cases hj : j < repeatsFor r
    · rw [orderFrom, expandRepeats,
        List.get?_append (by simpa using hj),
        List.get?_append (by simpa using hj),
        get?_replicate, get?_replicate, if_pos hj, if_pos hj]
      simp
    · have hj' : repeatsFor r ≤ j := Nat.le_of_not_lt hj
      rw [orderFrom, expandRepeats,
        List.get?_append_right (by simpa using hj'),
        List.get?_append_right (by simpa using hj')]
      simp only [List.length_replicate]
      cases hh : (orderFrom (i + 1) rest).get? (j - repeatsFor r) with
      | none => rw [← ih (i + 1) (j - repeatsFor r), hh]; rfl
      | some ri =>
        have hmem : ri ∈ orderFrom (i + 1) rest := List.get?_mem hh
        have hge : i + 1 ≤ ri := orderFrom_mem_ge (i + 1) rest ri hmem
        have hsub : ri - i = (ri - (i + 1)) + 1 := by omega
        rw [← ih (i + 1) (j - repeatsFor r), hh]
        simp only [Option.bind_some, Option.some_bind, hsub, List.get?_cons_succ]

theorem saveResponsesLoop_meta (rs : List MbResponse) :
    ∀ (st : Store) (i : Nat) (meta : StubMeta),
      (saveResponsesLoop rs st i meta).1 =
        { responseIds := meta.responseIds ++ idsFrom st.idCounter rs.length,
          orderWithRepeats := meta.orderWithRepeats ++ orderFrom i rs,
          nextIndex := meta.nextIndex } := by
  induction rs with
  | nil => intro st i meta; simp [saveResponsesLoop, idsFrom, orderFrom]
  | cons r rest ih =>
    intro st i meta
    simp only [saveResponsesLoop, generateId]
    rw [ih]
    simp [idsFrom, orderFrom, List.append_assoc]

theorem saveResponsesLoop_idCounter (rs : List MbResponse) :
    ∀ (st : Store) (i : Nat) (meta : StubMeta),
      (saveResponsesLoop rs st i meta).2.idCounter = st.idCounter + rs.length := by
  induction rs with
  | nil => intro st i meta; rfl
  | cons r rest ih =>
    intro st i meta
    simp only [saveResponsesLoop, generateId]
    rw [ih]
    simp only [List.length_cons]
    omega

theorem saveResponsesLoop_metas (rs : List MbResponse) :
    ∀ (st : Store) (i : Nat) (meta : StubMeta),
      (saveResponsesLoop rs st i meta).2.metas = st.metas := by
  induction rs with
  | nil => intro st i meta; rfl
  | cons r rest ih =>
    intro st i meta
    simp only [saveResponsesLoop, generateId]
    rw [ih]

theorem saveResponsesLoop_imposters (rs : List MbResponse) :
    ∀ (st : Store) (i : Nat) (meta : StubMeta),
      (saveResponsesLoop rs st i meta).2.imposters = st.imposters := by
  induction rs with
  | nil => intro st i meta; rfl
  | cons r rest ih =>
    intro st i meta
    simp only [saveResponsesLoop, generateId]
    rw [ih]

theorem saveResponsesLoop_resp_old (rs : List MbResponse) :
    ∀ (st : Store) (i : Nat) (meta : StubMeta) (k : Nat), k < st.idCounter →
      hget (saveResponsesLoop rs st i meta).2.responses k = hget st.responses k := by
  induction rs with
  | nil => intro st i meta k _; rfl
  | cons r rest ih =>
    intro st i meta k hk
    simp only [saveResponsesLoop, generateId]
    rw [ih _ _ _ k (Nat.lt_succ_of_lt hk)]
    exact hget_hset_ne _ _ _ _ (Nat.ne_of_lt hk)

theorem saveResponsesLoop_resp_new (rs : List MbResponse) :
    ∀ (st : Store) (i : Nat) (meta : StubMeta) (j : Nat), j < rs.length →
      hget (saveResponsesLoop rs st i meta).2.responses (st.idCounter + j) = rs.get? j := by
  induction rs with
  | nil => intro st i meta j hj; exact absurd hj (by simp)
  | cons r rest ih =>
    intro st i meta j hj
    simp only [saveResponsesLoop, generateId]
    cases j with
    | zero =>
      have hres0 := saveResponsesLoop_resp_old rest
        { st with idCounter := st.idCounter + 1, responses := hset st.responses st.idCounter r }
        (i + 1)
        { meta with
          responseIds := meta.responseIds ++ [st.idCounter],
          orderWithRepeats := meta.orderWithRepeats ++ List.replicate (repeatsFor r) i }
        st.idCounter (Nat.lt_succ_self _)
      exact hres0.trans (hget_hset_same st.responses st.idCounter r)
    | succ j =>
      have harith : st.idCounter + (j + 1) = st.idCounter + 1 + j := by omega
      rw [harith, ih _ _ _ j (Nat.lt_of_succ_lt_succ hj)]
      rfl

theorem saveStub_store (st : Store) (imposterId : Nat) (stub : Stub) :
    (saveStubMetaAndResponses st imposterId stub).1 =
      { meta := ⟨st.idCounter⟩, predicates := stub.predicates } ∧
    hget (saveStubMetaAndResponses st imposterId stub).2.metas (imposterId, st.idCounter) =
      some { responseIds := idsFrom (st.idCounter + 1) (stub.responses.getD []).length,
             orderWithRepeats := orderFrom 0 (stub.responses.getD []),
             nextIndex := .num 0 } ∧
    (saveStubMetaAndResponses st imposterId stub).2.idCounter =
      st.idCounter + 1 + (stub.responses.getD []).length ∧
    (saveStubMetaAndResponses st imposterId stub).2.imposters = st.imposters ∧
    (∀ i' s', s' ≠ st.idCounter →
      hget (saveStubMetaAndResponses st imposterId stub).2.metas (i', s') =
        hget st.metas (i', s')) ∧
    (∀ k, k < st.idCounter →
      hget (saveStubMetaAndResponses st imposterId stub).2.responses k =
        hget st.responses k) ∧
    (∀ j, j < (stub.responses.getD []).length →
      hget (saveStubMetaAndResponses st imposterId stub).2.responses (st.idCounter + 1 + j) =
        (stub.responses.getD []).get? j) := by
  have h1 := saveResponsesLoop_idCounter (stub.responses.getD [])
    { st with idCounter := st.idCounter + 1 } 0 ⟨[], [], .num 0⟩
  have h2 := saveResponsesLoop_metas (stub.responses.getD [])
    { st with idCounter := st.idCounter + 1 } 0 ⟨[], [], .num 0⟩
  have h3 := saveResponsesLoop_imposters (stub.responses.getD [])
    { st with idCounter := st.idCounter + 1 } 0 ⟨[], [], .num 0⟩
  have hm := saveResponsesLoop_meta (stub.responses.getD [])
    { st with idCounter := st.idCounter + 1 } 0 ⟨[], [], .num 0⟩
  simp only [saveStubMetaAndResponses, generateId]
  refine ⟨by trivial, ?_, by simpa using h1, by simpa using h3, ?_, ?_, ?_⟩
  · rw [hget_hset_same, hm]
    simp
  · intro i' s' hs
    rw [hget_hset_ne _ _ _ _ (by simp [hs]), h2]
  · intro k hk
    exact saveResponsesLoop_resp_old (stub.responses.getD []) _ _ _ k (Nat.lt_succ_of_lt hk)
  · intro j hj
    exact saveResponsesLoop_resp_new (stub.responses.getD []) _ _ _ j hj

theorem getResponses_resolve (responses : List (Nat × MbResponse)) :
    ∀ (rs : List MbResponse) (a : Nat),
      (∀ j, j < rs.length → hget responses (a + j) = rs.get? j) →
      ((idsFrom a rs.length).map (fun rid => hget responses rid)).filterMap id = rs := by
  intro rs
  induction rs with
  | nil => intro a _; rfl
  | cons r rest ih =>
    intro a h
    have h0 : hget responses a = some r := by simpa using h 0 (by simp)
    have hrest : ∀ j, j < rest.length → hget responses (a + 1 + j) = rest.get? j := by
      intro j hj
      have : a + 1 + j = a + (j + 1) := by omega
      rw [this]
      simpa using h (j + 1) (by simpa using Nat.succ_lt_succ hj)
    simp only [List.length_cons, idsFrom, List.map_cons, List.filterMap_cons, h0, id]
    rw [ih (a + 1) hrest]

theorem nextResponse_step (st : Store) (imposterId stubId : Nat) (preds : Option (List Predicate))
    (ids : List Nat) (rs : List MbResponse) (c : Nat)
    (hc : c < (orderFrom 0 rs).length) (hg : GoodState st imposterId stubId ids rs c) :
    ∃ st2, WrappedStub.nextResponse (.stubHandle stubId preds) st imposterId =
        .ok (⟨(expandRepeats rs).getD c emptyIsResponse, .currentIndexOf stubId⟩, st2) ∧
      GoodState st2 imposterId stubId ids rs ((c + 1) % (orderFrom 0 rs).length) := by
  obtain ⟨hm, hres⟩ := hg
  have hlen : (orderFrom 0 rs).length ≠ 0 := by omega
  have hresp :
      (((orderFrom 0 rs).get? c).bind (fun ri => ids.get? ri)).bind
          (fun rid => hget st.responses rid) =
        (expandRepeats rs).get? c := by
    rw [Option.bind_assoc]
    have hcongr :
        ((orderFrom 0 rs).get? c).bind (fun ri => (ids.get? ri).bind (fun rid => hget st.responses rid)) =
        ((orderFrom 0 rs).get? c).bind (fun ri => rs.get? ri) := by
      cases (orderFrom 0 rs).get? c with
      | none => rfl
      | some ri => simpa using hres ri
    rw [hcongr]
    have := orderFrom_expand rs 0 c
    simpa using this
  have hsome : (expandRepeats rs).get? c =
      some ((expandRepeats rs).getD c emptyIsResponse) := by
    have hce : c < (expandRepeats rs).length := by rw [← orderFrom_length 0]; exact hc
    rw [List.getD_eq_getElem?_getD, ← List.get?_eq_getElem?]
    cases hx : (expandRepeats rs).get? c with
    | none => exact absurd (List.get?_eq_none.mp hx) (by omega)
    | some x => rfl
  refine ⟨incrementRequestCounter
    { st with metas := (hset st.metas (imposterId, stubId)
        (⟨ids, orderFrom 0 rs, .num ((c + 1) % (orderFrom 0 rs).length)⟩ : StubMeta)) }
    imposterId, ?_, ?_, ?_⟩
  · simp only [WrappedStub.nextResponse, getNextResponse, hm, advanceMeta, JsNum.add1,
      JsNum.modNat, if_neg hlen, jsIndex, Nat.mod_eq_of_lt hc]
    rw [hresp, hsome]
    rfl
  · simpa [incrementRequestCounter] using
      hget_hset_same st.metas (imposterId, stubId)
        (⟨ids, orderFrom 0 rs, .num ((c + 1) % (orderFrom 0 rs).length)⟩ : StubMeta)
  · intro ri
    simpa [incrementRequestCounter] using hres ri

theorem nextResponses_cycle (imposterId stubId : Nat) (preds : Option (List Predicate))
    (ids : List Nat) (rs : List MbResponse) :
    ∀ (m c : Nat) (st : Store), c < (orderFrom 0 rs).length →
      GoodState st imposterId stubId ids rs c →
      ∃ stf, nextResponses (.stubHandle stubId preds) imposterId m st =
        .ok ((List.range m).map (fun j =>
          (expandRepeats rs).getD ((c + j) % (orderFrom 0 rs).length) emptyIsResponse), stf) := by
  intro m
  induction m with
  | zero => intro c st _ _; exact ⟨st, by simp [nextResponses]⟩
  | succ m ih =>
    intro c st hc hg
    have hlen : 0 < (orderFrom 0 rs).length := Nat.lt_of_le_of_lt (Nat.zero_le c) hc
    obtain ⟨st2, hstep, hg2⟩ := nextResponse_step st imposterId stubId preds ids rs c hc hg
    obtain ⟨stf, htail⟩ := ih ((c + 1) % (orderFrom 0 rs).length) _ (Nat.mod_lt _ hlen) hg2
    refine ⟨stf, ?_⟩
    simp only [nextResponses, hstep, htail]
    rw [List.range_succ_eq_map, List.map_cons, List.map_map]
    have hfn :
        ((fun j => (expandRepeats rs).getD ((c + j) % (orderFrom 0 rs).length) emptyIsResponse) ∘
          Nat.succ) =
        (fun j => (expandRepeats rs).getD
          (((c + 1) % (orderFrom 0 rs).length + j) % (orderFrom 0 rs).length) emptyIsResponse) := by
      funext j
      simp only [Function.comp]
      rw [Nat.mod_add_mod]
      congr 2
      omega
    rw [hfn]
    simp [Nat.mod_eq_of_lt hc]

theorem firstScan_none (f : List Predicate → Bool) :
    ∀ l : List StubDefinition, (∀ sd ∈ l, f (sd.predicates.getD []) = false) →
      firstScan f l = none := by
  intro l
  induction l with
  | nil => intro _; rfl
  | cons sd rest ih =>
    intro h
    simp only [firstScan, h sd (List.mem_cons_self sd rest), if_false, Bool.false_eq_true,
      if_neg]
    exact ih (fun x hx => h x (List.mem_cons_of_mem sd hx))

theorem firstScan_found (f : List Predicate → Bool) :
    ∀ (l : List StubDefinition) (k : Nat) (sd : StubDefinition),
      l.get? k = some sd → f (sd.predicates.getD []) = true →
      (∀ j sd', j < k → l.get? j = some sd' → f (sd'.predicates.getD []) = false) →
      firstScan f l = some sd := by
  intro l
  induction l with
  | nil => intro k sd hk; simp at hk
  | cons a rest ih =>
    intro k sd hk hf hmin
    cases k with
    | zero =>
      simp only [List.get?_cons_zero, Option.some.injEq] at hk
      subst hk
      simp [firstScan, hf]
    | succ k =>
      have ha : f (a.predicates.getD []) = false :=
        hmin 0 a (Nat.succ_pos k) rfl
      simp only [firstScan, ha, Bool.false_eq_true, if_neg, if_false]
      exact ih k sd hk hf
        (fun j sd' hj hget => hmin (j + 1) sd' (Nat.succ_lt_succ hj) hget)

/-- C3 (amended): for every reachable `StubMeta` — created by stub
creation, preserved by every `addResponse` and `getNextResponse` —
`orderWithRepeats` is non-empty whenever `responseIds` is non-empty, and
whenever `nextIndex` is an integer `n` it lies in
`[0, max 1 len(orderWithRepeats))`; in particular in
`[0, len(orderWithRepeats))` whenever `orderWithRepeats` is non-empty.
(The frozen claim's unconditional `nextIndex ∈ [0, len)` fails for the
reachable meta of a zero-response stub, where `nextIndex` is 0 and the
interval is empty, and `nextIndex` stops being an integer — becomes NaN —
after `getNextResponse` runs on such a stub.) -/
theorem metaReach_invariant (meta : StubMeta) (h : MetaReach meta) :
    (meta.responseIds ≠ [] → meta.orderWithRepeats ≠ []) ∧
    (∀ n, meta.nextIndex = .num n → n < max 1 meta.orderWithRepeats.length) := by
  induction h with
  | created st stub =>
    rw [saveResponsesLoop_meta]
    constructor
    · intro hids
      simp only [List.nil_append] at hids ⊢
      cases hrs : stub.responses.getD [] with
      | nil => rw [hrs] at hids; simp [idsFrom] at hids
      | cons r rest => exact orderFrom_ne_nil 0 _ (by simp)
    · intro n hn
      simp only at hn
      cases hn
      exact Nat.lt_of_lt_of_le Nat.one_pos (le_max_left _ _)
  | addResp meta rid r _ ih =>
    constructor
    · intro _
      simp only [addResponseMeta]
      intro hcontra
      have := congrArg List.length hcontra
      simp only [List.length_append, List.length_replicate, List.length_nil] at this
      have := repeatsFor_pos r
      omega
    · intro n hn
      simp only [addResponseMeta] at hn
      have := ih.2 n hn
      have hle : meta.orderWithRepeats.length ≤
          (addResponseMeta meta rid r).orderWithRepeats.length := by
        simp [addResponseMeta]
      calc n < max 1 meta.orderWithRepeats.length := this
        _ ≤ max 1 (addResponseMeta meta rid r).orderWithRepeats.length :=
          max_le_max (le_refl 1) hle
  | advanced meta _ ih =>
    refine ⟨fun hids => ih.1 hids, ?_⟩
    intro n hn
    simp only [advanceMeta] at hn
    by_cases hlen : meta.orderWithRepeats.length = 0
    · exfalso
      cases hx : meta.nextIndex with
      | nan => rw [hx] at hn; simp [JsNum.add1, JsNum.modNat] at hn
      | num k => rw [hx] at hn; simp [JsNum.add1, JsNum.modNat, hlen] at hn
    · cases hx : meta.nextIndex with
      | nan => rw [hx] at hn; simp [JsNum.add1, JsNum.modNat] at hn
      | num k =>
        rw [hx] at hn
        simp only [JsNum.add1, JsNum.modNat, if_neg hlen, JsNum.num.injEq] at hn
        subst hn
        simp only [advanceMeta]
        exact Nat.lt_of_lt_of_le (Nat.mod_lt _ (Nat.pos_of_ne_zero hlen)) (le_max_right _ _)

theorem saveStubsLoop_imposters :
    ∀ (stubs : List Stub) (st : Store) (imposterId : Nat),
      (saveStubsLoop stubs st imposterId).2.imposters = st.imposters := by
  intro stubs
  induction stubs with
  | nil => intro st imposterId; rfl
  | cons s rest ih =>
    intro st imposterId
    simp only [saveStubsLoop]
    rw [ih]
    exact (saveStub_store st imposterId s).2.2.2.1

theorem saveStubsLoop_idCounter_le :
    ∀ (stubs : List Stub) (st : Store) (imposterId : Nat),
      st.idCounter ≤ (saveStubsLoop stubs st imposterId).2.idCounter := by
  intro stubs
  induction stubs with
  | nil => intro st imposterId; exact le_refl _
  | cons s rest ih =>
    intro st imposterId
    simp only [saveStubsLoop]
    have h1 := (saveStub_store st imposterId s).2.2.1
    have h2 := ih (saveStubMetaAndResponses st imposterId s).2 imposterId
    omega

theorem saveStubsLoop_metas_old :
    ∀ (stubs : List Stub) (st : Store) (imposterId : Nat) (i' s' : Nat), s' < st.idCounter →
      hget (saveStubsLoop stubs st imposterId).2.metas (i', s') = hget st.metas (i', s') := by
  intro stubs
  induction stubs with
  | nil => intro st imposterId i' s' _; rfl
  | cons s rest ih =>
    intro st imposterId i' s' hs
    simp only [saveStubsLoop]
    have h1 := (saveStub_store st imposterId s).2.2.1
    rw [ih (saveStubMetaAndResponses st imposterId s).2 imposterId i' s' (by omega)]
    exact (saveStub_store st imposterId s).2.2.2.2.1 i' s' (Nat.ne_of_lt hs)

theorem saveStubsLoop_resp_old :
    ∀ (stubs : List Stub) (st : Store) (imposterId : Nat) (k : Nat), k < st.idCounter →
      hget (saveStubsLoop stubs st imposterId).2.responses k = hget st.responses k := by
  intro stubs
  induction stubs with
  | nil => intro st imposterId k _; rfl
  | cons s rest ih =>
    intro st imposterId k hk
    simp only [saveStubsLoop]
    have h1 := (saveStub_store st imposterId s).2.2.1
    rw [ih (saveStubMetaAndResponses st imposterId s).2 imposterId k (by omega)]
    exact (saveStub_store st imposterId s).2.2.2.2.2.1 k hk

theorem saveStubsLoop_length :
    ∀ (stubs : List Stub) (st : Store) (imposterId : Nat),
      (saveStubsLoop stubs st imposterId).1.length = stubs.length := by
  intro stubs
  induction stubs with
  | nil => intro st imposterId; rfl
  | cons s rest ih =>
    intro st imposterId
    simp only [saveStubsLoop, List.length_cons]
    rw [ih]

theorem saveStubsLoop_spec :
    ∀ (stubs : List Stub) (st : Store) (imposterId : Nat) (j : Nat) (s : Stub),
      stubs.get? j = some s →
      ∃ sid, (saveStubsLoop stubs st imposterId).1.get? j = some ⟨⟨sid⟩, s.predicates⟩ ∧
        getResponses (saveStubsLoop stubs st imposterId).2 imposterId sid =
          s.responses.getD [] := by
  intro stubs
  induction stubs with
  | nil => intro st imposterId j s hj; simp at hj
  | cons s0 rest ih =>
    intro st imposterId j s hj
    cases j with
    | zero =>
      simp only [List.get?_cons_zero, Option.some.injEq] at hj
      subst hj
      refine ⟨st.idCounter, ?_, ?_⟩
      · simp only [saveStubsLoop, List.get?_cons_zero, Option.some.injEq]
        exact (saveStub_store st imposterId s0).1
      · have hmeta := (saveStub_store st imposterId s0).2.1
        have hmeta2 :
            hget (saveStubsLoop (s0 :: rest) st imposterId).2.metas (imposterId, st.idCounter) =
            some { responseIds := idsFrom (st.idCounter + 1) (s0.responses.getD []).length,
                   orderWithRepeats := orderFrom 0 (s0.responses.getD []),
                   nextIndex := .num 0 } := by
          simp only [saveStubsLoop]
          rw [saveStubsLoop_metas_old rest (saveStubMetaAndResponses st imposterId s0).2
            imposterId imposterId st.idCounter (by have := (saveStub_store st imposterId s0).2.2.1; omega)]
          exact hmeta
        simp only [getResponses, hmeta2]
        refine getResponses_resolve _ (s0.responses.getD []) (st.idCounter + 1) ?_
        intro j' hj'
        simp only [saveStubsLoop]
        rw [saveStubsLoop_resp_old rest (saveStubMetaAndResponses st imposterId s0).2
          imposterId (st.idCounter + 1 + j') (by have := (saveStub_store st imposterId s0).2.2.1; omega)]
        exact (saveStub_store st imposterId s0).2.2.2.2.2.2 j' hj'
    | succ j =>
      simp only [List.get?_cons_succ] at hj
      obtain ⟨sid, hd, hr⟩ := ih (saveStubMetaAndResponses st imposterId s0).2 imposterId j s hj
      exact ⟨sid, by simpa [saveStubsLoop] using hd, by simpa [saveStubsLoop] using hr⟩

-- ####################################################################
-- Claim theorems
-- ####################################################################

/-- C1: for every stub whose meta exists, whose `orderWithRepeats` is
non-empty and whose cursor is the number `n`, `getNextResponse` returns
the response resolved from `responseIds[orderWithRepeats[n % length]]`
(`none` when that response record was independently deleted) and persists
the meta with the cursor advanced to `(n + 1) % length`; for every stub
with no meta record, `getNextResponse` throws instead of returning a soft
`null`. -/
theorem getNextResponse_cycles_and_throws (st : Store) (imposterId stubId : Nat) :
    (∀ meta n, hget st.metas (imposterId, stubId) = some meta →
      meta.nextIndex = JsNum.num n →
      meta.orderWithRepeats ≠ [] →
      getNextResponse st imposterId stubId =
        .ok ((((meta.orderWithRepeats.get? (n % meta.orderWithRepeats.length)).bind
            (fun ri => meta.responseIds.get? ri)).bind
            (fun rid => hget st.responses rid)),
          { st with metas := (hset st.metas (imposterId, stubId)
            { meta with nextIndex := .num ((n + 1) % meta.orderWithRepeats.length) }) })) ∧
    (hget st.metas (imposterId, stubId) = none →
      getNextResponse st imposterId stubId =
        .error ("GET_NEXT_RESPONSE_ERROR, no meta for stubId " ++ toString stubId)) := by
  constructor
  · intro meta n hm hn hne
    have hlen : meta.orderWithRepeats.length ≠ 0 :=
      fun h => hne (List.length_eq_zero.mp h)
    simp only [getNextResponse, hm, advanceMeta, hn, JsNum.add1, JsNum.modNat, if_neg hlen,
      jsIndex]
  · intro hm
    simp only [getNextResponse, hm]

/-- C1 witness: in `wStore1` the cursor 2 selects `orderWithRepeats[2] = 1`,
resolving to `respB`, and the cursor wraps to 0; a stub with no meta
throws. -/
theorem getNextResponse_cycles_and_throws_witness :
    getNextResponse wStore1 1 2 =
      .ok (some respB,
        { wStore1 with metas := (hset wStore1.metas (1, 2) ⟨[10, 11], [0, 1, 1], .num 0⟩) }) ∧
    getNextResponse wStore1 1 99 =
      .error ("GET_NEXT_RESPONSE_ERROR, no meta for stubId " ++ toString 99) := by
  constructor
  · exact ((getNextResponse_cycles_and_throws wStore1 1 2).1 wMeta1 2 rfl rfl (by decide)).trans
      (by rfl)
  · exact (getNextResponse_cycles_and_throws wStore1 1 99).2 rfl

/-- C9: for every stub whose meta record exists with empty `responseIds`
and empty `orderWithRepeats` (as created for a stub declared with zero
responses), `getNextResponse` does not throw the no-meta error and
resolves to `null`, even though its index computation takes the cursor
modulo a zero-length `orderWithRepeats` (leaving the persisted cursor
`NaN`). -/
theorem getNextResponse_empty_meta (st : Store) (imposterId stubId : Nat) (meta : StubMeta)
    (hm : hget st.metas (imposterId, stubId) = some meta)
    (hids : meta.responseIds = []) (horder : meta.orderWithRepeats = []) :
    getNextResponse st imposterId stubId =
      .ok (none,
        { st with metas := (hset st.metas (imposterId, stubId)
          { meta with nextIndex := JsNum.nan }) }) := by
  have hadv : advanceMeta meta = { meta with nextIndex := JsNum.nan } := by
    simp only [advanceMeta, horder]
    cases meta.nextIndex <;> simp [JsNum.add1, JsNum.modNat]
  cases hx : meta.nextIndex with
  | nan => simp [getNextResponse, hm, horder, hadv, hx, JsNum.modNat, jsIndex]
  | num k => simp [getNextResponse, hm, horder, hadv, hx, JsNum.modNat, jsIndex]

/-- C9 witness: the empty meta in `wStore9` yields a soft `none` and a
persisted `NaN` cursor. -/
theorem getNextResponse_empty_meta_witness :
    getNextResponse wStore9 1 5 =
      .ok (none,
        { wStore9 with metas := (hset wStore9.metas (1, 5) ⟨[], [], JsNum.nan⟩) }) :=
  getNextResponse_empty_meta wStore9 1 5 ⟨[], [], .num 0⟩ rfl rfl rfl

/-- C6: for every existing stub meta, `addResponse` appends exactly one
new id at the end of `responseIds` and appends that id's index
`repeatsFor`-many times at the end of `orderWithRepeats`, leaving
`nextIndex` and all pre-existing entries unchanged; if the meta does not
exist it returns `null` and writes nothing. -/
theorem addResponse_appends (st : Store) (imposterId stubId : Nat) (response : MbResponse) :
    (∀ meta, hget st.metas (imposterId, stubId) = some meta →
      addResponse st imposterId stubId response =
        (some (addResponseMeta meta st.idCounter response),
          { st with
              idCounter := st.idCounter + 1
              responses := (hset st.responses st.idCounter response)
              metas := (hset st.metas (imposterId, stubId)
                (addResponseMeta meta st.idCounter response)) }) ∧
      (addResponseMeta meta st.idCounter response).responseIds =
        meta.responseIds ++ [st.idCounter] ∧
      (addResponseMeta meta st.idCounter response).orderWithRepeats =
        meta.orderWithRepeats ++ List.replicate (repeatsFor response) meta.responseIds.length ∧
      (addResponseMeta meta st.idCounter response).nextIndex = meta.nextIndex) ∧
    (hget st.metas (imposterId, stubId) = none →
      addResponse st imposterId stubId response = (none, st)) := by
  constructor
  · intro meta hm
    refine ⟨?_, rfl, rfl, rfl⟩
    simp only [addResponse, hm, generateId]
  · intro hm
    simp only [addResponse, hm]

/-- C6 witness: appending `respA` (repeat 2) to `wMeta1` appends the fresh
id 0 and two copies of index 2, leaving the cursor at 2; a missing meta
yields `none` and the unchanged store. -/
theorem addResponse_appends_witness :
    (addResponse wStore1 1 2 respA).1 = some ⟨[10, 11, 0], [0, 1, 1, 2, 2], .num 2⟩ ∧
    addResponse wStore1 1 99 respA = (none, wStore1) := by
  constructor
  · rw [((addResponse_appends wStore1 1 2 respA).1 wMeta1 rfl).1]
    rfl
  · exact (addResponse_appends wStore1 1 99 respA).2 rfl

/-- C5: for every existing imposter and every index at which no stub
exists (index at or beyond the stub count), `deleteStubAtIndex` (the
target of the stub view's `deleteAtIndex`) and `overwriteAtIndex` fail
with a `MissingResourceError` whose message is exactly
`no stub at index {index}`, and, the result being an error, no updated
store is produced — the stub sequence and all dependent records are left
unmodified. -/
theorem out_of_range_index_errors (st : Store) (imposterId index : Nat)
    (imposter : ImposterConfig) (stub : Stub)
    (himp : hget st.imposters imposterId = some imposter)
    (hlen : imposter.stubs.length ≤ index) :
    deleteStubAtIndex st imposterId index =
      .error (.missingResource ("no stub at index " ++ toString index)) ∧
    overwriteAtIndex st imposterId stub index =
      .error (.missingResource ("no stub at index " ++ toString index)) := by
  have hnone : imposter.stubs.get? index = none := List.get?_eq_none.mpr hlen
  constructor
  · simp only [deleteStubAtIndex, himp, hnone]
  · simp only [overwriteAtIndex, deleteStubAtIndex, himp, hnone]

/-- C5 witness: index 1 on the one-stub imposter of `wStore5` makes both
operations fail with the exact message. -/
theorem out_of_range_index_errors_witness :
    deleteStubAtIndex wStore5 1 1 =
      .error (.missingResource ("no stub at index " ++ toString 1)) ∧
    overwriteAtIndex wStore5 1 {} 1 =
      .error (.missingResource ("no stub at index " ++ toString 1)) :=
  out_of_range_index_errors wStore5 1 1 wImp5 {} rfl (by decide)

/-- C8: a message published by a client carries that client's origin
identifier `_clientId`; a subscriber's wrapped callback is never invoked
for a message whose embedded `_clientId` equals its own, and a message
from a different client reaches the registered handler with its payload. -/
theorem pubsub_self_filter {P A : Type} (selfId otherId : String) (payload : P) (cb : P → A) :
    (publishData selfId payload).clientId = selfId ∧
    wrapCallbackFn selfId cb (publishData selfId payload) = none ∧
    (otherId ≠ selfId →
      wrapCallbackFn selfId cb (publishData otherId payload) = some (cb payload)) := by
  refine ⟨rfl, ?_, ?_⟩
  · simp [wrapCallbackFn, publishData]
  · intro h
    simp [wrapCallbackFn, publishData, h]

/-- C2: `saveStubMetaAndResponses` persists a meta whose `responseIds`
are the freshly generated ids in declaration order (resolving pointwise to
the declared responses), whose `orderWithRepeats` is the concatenation of
`repeatsFor r_0` copies of 0, then `repeatsFor r_1` copies of 1, and so
on (`orderFrom 0`), and whose cursor starts at 0; consequently, for a
stub with at least one response, `m` successive `nextResponse()` calls on
its handle yield the repeat-expanded sequence (`expandRepeats`: each
response `repeatsFor` times consecutively in declaration order) cyclically
at positions `j % length`. -/
theorem saveStub_repeat_expansion (st : Store) (imposterId : Nat) (stub : Stub) :
    (saveStubMetaAndResponses st imposterId stub).1 =
      { meta := ⟨st.idCounter⟩, predicates := stub.predicates } ∧
    hget (saveStubMetaAndResponses st imposterId stub).2.metas (imposterId, st.idCounter) =
      some { responseIds := idsFrom (st.idCounter + 1) (stub.responses.getD []).length,
             orderWithRepeats := orderFrom 0 (stub.responses.getD []),
             nextIndex := .num 0 } ∧
    (∀ ri, ((idsFrom (st.idCounter + 1) (stub.responses.getD []).length).get? ri).bind
        (fun rid => hget (saveStubMetaAndResponses st imposterId stub).2.responses rid) =
      (stub.responses.getD []).get? ri) ∧
    (stub.responses.getD [] ≠ [] → ∀ m, ∃ stf,
      nextResponses (wrap (some (saveStubMetaAndResponses st imposterId stub).1)) imposterId m
          (saveStubMetaAndResponses st imposterId stub).2 =
        .ok ((List.range m).map (fun j =>
          (expandRepeats (stub.responses.getD [])).getD
            (j % (orderFrom 0 (stub.responses.getD [])).length) emptyIsResponse), stf)) := by
  have hs := saveStub_store st imposterId stub
  have hres : ∀ ri, ((idsFrom (st.idCounter + 1) (stub.responses.getD []).length).get? ri).bind
      (fun rid => hget (saveStubMetaAndResponses st imposterId stub).2.responses rid) =
      (stub.responses.getD []).get? ri := by
    intro ri
    by_cases hri : ri < (stub.responses.getD []).length
    · rw [idsFrom_get?, if_pos hri, Option.some_bind]
      exact hs.2.2.2.2.2.2 ri hri
    · rw [idsFrom_get?, if_neg hri, Option.none_bind,
        Eq.symm (List.get?_eq_none.mpr (Nat.le_of_not_lt hri))]
  refine ⟨hs.1, hs.2.1, hres, ?_⟩
  intro hne m
  have hlen : 0 < (orderFrom 0 (stub.responses.getD [])).length :=
    List.length_pos.mpr (orderFrom_ne_nil 0 _ hne)
  have hgood : GoodState (saveStubMetaAndResponses st imposterId stub).2 imposterId st.idCounter
      (idsFrom (st.idCounter + 1) (stub.responses.getD []).length) (stub.responses.getD []) 0 :=
    ⟨hs.2.1, hres⟩
  obtain ⟨stf, hcyc⟩ := nextResponses_cycle imposterId st.idCounter stub.predicates
    (idsFrom (st.idCounter + 1) (stub.responses.getD []).length) (stub.responses.getD [])
    m 0 (saveStubMetaAndResponses st imposterId stub).2 hlen hgood
  refine ⟨stf, ?_⟩
  rw [hs.1]
  simp only [wrap]
  simpa using hcyc

/-- C2 witness: for the stub `[respA (repeat 2), respB]` saved into the
empty store, six `nextResponse()` calls yield `a, a, b, a, a, b`. -/
theorem saveStub_repeat_expansion_witness :
    (nextResponses (wrap (some (saveStubMetaAndResponses {} 1 wStub2).1)) 1 6
        (saveStubMetaAndResponses {} 1 wStub2).2).map Prod.fst =
      .ok [respA, respA, respB, respA, respA, respB] := by
  obtain ⟨stf, h⟩ := (saveStub_repeat_expansion {} 1 wStub2).2.2.2 (by decide) 6
  rw [h]
  rfl

/-- C3 counterexample: the meta of a stub created with zero responses is
reachable, yet its cursor 0 does not lie in the empty interval
`[0, len(orderWithRepeats)) = [0, 0)` — refuting the frozen claim's
unconditional cursor bound. -/
theorem metaReach_invariant_counterexample :
    MetaReach (⟨[], [], JsNum.num 0⟩ : StubMeta) ∧
    ¬ ∃ n, (⟨[], [], JsNum.num 0⟩ : StubMeta).nextIndex = JsNum.num n ∧
        n < (⟨[], [], JsNum.num 0⟩ : StubMeta).orderWithRepeats.length := by
  constructor
  · exact MetaReach.created {} {}
  · rintro ⟨n, -, hlt⟩
    simp at hlt

/-- C3 witness: the amended bound applied to the reachable zero-response
meta at cursor 0. -/
theorem metaReach_invariant_witness :
    0 < max 1 (⟨[], [], JsNum.num 0⟩ : StubMeta).orderWithRepeats.length :=
  (metaReach_invariant ⟨[], [], .num 0⟩ (MetaReach.created {} {})).2 0 rfl

/-- C4: for every imposter creation request (with zero, one, or N stubs)
added via the facade's `add`, a subsequent `get` on its port returns an
imposter structurally equal to the one added, minus the storage-only
`meta` fields: same port, protocol and protocol-specific fields, and a
stubs array whose entries carry the same predicates and the same
responses in the same order. -/
theorem add_get_roundtrip (rs : RepoState) (req : ImposterCreationRequest) :
    repoGet (repoAdd rs req) req.port =
      .ok (some
        { port := req.port,
          protocol := req.protocol,
          extra := req.extra,
          stubs := (req.stubs.getD []).map (fun s =>
            { predicates := s.predicates,
              responses := s.responses.getD [],
              matchList := none }) }) := by
  simp only [repoAdd, repoGet, addReference, saveImposter, hget_hset_same]
  simp only [toJSON, hget_hset_same]
  simp only [Except.ok.injEq, Option.some.injEq, OutgoingImposter.mk.injEq, true_and]
  apply List.ext
  intro n
  rw [List.get?_map, List.get?_map]
  cases hn : (req.stubs.getD []).get? n with
  | none =>
    have hlen : (req.stubs.getD []).length ≤ n := List.get?_eq_none.mp hn
    have hnone : (saveStubsLoop (req.stubs.getD []) rs.store req.port).1.get? n = none :=
      List.get?_eq_none.mpr (by rw [saveStubsLoop_length]; exact hlen)
    rw [hnone]
    rfl
  | some s =>
    obtain ⟨sid, hd, hr⟩ := saveStubsLoop_spec (req.stubs.getD []) rs.store req.port n s hn
    rw [hd]
    have helem :
        ({ predicates := s.predicates,
           responses := (getResponses (saveStubsLoop (req.stubs.getD []) rs.store req.port).2 req.port sid),
           matchList := none } : OutgoingStub) =
        ({ predicates := s.predicates,
           responses := s.responses.getD [],
           matchList := none } : OutgoingStub) := by
      rw [hr]
    exact congrArg some helem

/-- C7: `first` scans the current stub sequence linearly from
`startIndex`, applying the filter to each stub's predicate list (an empty
list when the stub declares none): when no stub from `startIndex` onward
matches it returns success `false` with the no-op handle, whose
`nextResponse()` resolves to the empty `is` response with a `stubIndex()`
resolving to 0; otherwise it returns success `true` with a handle for the
first matching stub in array order. -/
theorem first_linear_scan (st : Store) (imposterId : Nat) (f : List Predicate → Bool)
    (startIndex : Nat) :
    ((∀ i sd, startIndex ≤ i → (getStubs st imposterId).get? i = some sd →
        f (sd.predicates.getD []) = false) →
      first st imposterId f startIndex = (false, .noop) ∧
      WrappedStub.nextResponse .noop st imposterId =
        .ok (⟨emptyIsResponse, .constZero⟩, st) ∧
      StubIndexFn.resolve .constZero st imposterId = .ok 0) ∧
    (∀ i sd, startIndex ≤ i → (getStubs st imposterId).get? i = some sd →
      f (sd.predicates.getD []) = true →
      (∀ j sd', startIndex ≤ j → j < i → (getStubs st imposterId).get? j = some sd' →
        f (sd'.predicates.getD []) = false) →
      first st imposterId f startIndex = (true, .stubHandle sd.meta.id sd.predicates)) := by
  constructor
  · intro h
    have hnone : firstScan f ((getStubs st imposterId).drop startIndex) = none := by
      apply firstScan_none
      intro sd hmem
      obtain ⟨k, hk⟩ := List.get?_of_mem hmem
      rw [List.get?_drop] at hk
      exact h (startIndex + k) sd (Nat.le_add_right _ _) hk
    exact ⟨by simp [first, hnone, wrap], rfl, rfl⟩
  · intro i sd hsi hgi hf hmin
    have hk : ((getStubs st imposterId).drop startIndex).get? (i - startIndex) = some sd := by
      rw [List.get?_drop, Nat.add_sub_cancel' hsi]
      exact hgi
    have hscan : firstScan f ((getStubs st imposterId).drop startIndex) = some sd := by
      refine firstScan_found f _ (i - startIndex) sd hk hf ?_
      intro j sd' hj hgj
      rw [List.get?_drop] at hgj
      exact hmin (startIndex + j) sd' (Nat.le_add_right _ _) (by omega) hgj
    simp [first, hscan, wrap]

/-- C7 witness: on the two-stub imposter of `wStore7`, a filter matching
nothing yields the no-op handle with its empty-`is` sentinel response, and
a filter matching only the second stub's empty predicate list yields
success with that stub's handle. -/
theorem first_linear_scan_witness :
    (first wStore7 1 (fun ps => decide (ps.length = 9)) 0 = (false, .noop) ∧
      WrappedStub.nextResponse .noop wStore7 1 =
        .ok (⟨emptyIsResponse, .constZero⟩, wStore7) ∧
      StubIndexFn.resolve .constZero wStore7 1 = .ok 0) ∧
    first wStore7 1 (fun ps => decide (ps = [])) 0 = (true, .stubHandle 5 none) := by
  constructor
  · refine (first_linear_scan wStore7 1 (fun ps => decide (ps.length = 9)) 0).1 ?_
    intro i sd _ hg
    have hm := List.get?_mem hg
    have : sd = wSd0 ∨ sd = wSd1 := by simpa [getStubs, wStore7, wImp7, hget] using hm
    rcases this with rfl | rfl <;> decide
  · refine (first_linear_scan wStore7 1 (fun ps => decide (ps = [])) 0).2 1 wSd1
      (by decide) rfl (by decide) ?_
    intro j sd' _ hj hg
    match j, hj with
    | 0, _ =>
      have : sd' = wSd0 := by
        simpa [getStubs, wStore7, wImp7, hget] using hg.symm
      subst this
      decide

/-- C10 (amended): the facade's `exists(id)` returns true exactly when the
id is a key of this process's in-memory behavior-function table — it never
consults the shared store (the result is invariant under any replacement
of the store), is made true by `add` and false by `shutdown`; for an
imposter persisted only by another process (present in the store, absent
from the table) `exists` is false and `get` does not return the imposter:
it rejects, because `rehydrate` evaluates `Object.keys` of the missing
table entry. -/
theorem exists_in_memory_spec (rs : RepoState) (id : Nat) (req : ImposterCreationRequest) :
    (repoExists rs id = true ↔ id ∈ rs.imposterFns.map Prod.fst) ∧
    (∀ st', repoExists { rs with store := st' } id = repoExists rs id) ∧
    repoExists (repoAdd rs req) req.port = true ∧
    repoExists (repoShutdown rs id) id = false ∧
    (∀ imposter, hget rs.store.imposters id = some imposter →
      hget rs.imposterFns id = none →
      repoGet rs id = .error ("TypeError: Cannot convert undefined or null to object")) := by
  refine ⟨?_, fun st' => rfl, ?_, ?_, ?_⟩
  · simp [repoExists, List.any_eq_true, List.mem_map]
  · simp [repoAdd, addReference, repoExists, hset]
  · simp only [repoShutdown, repoExists, hdel]
    rw [List.any_eq_false]
    intro p hp
    have := (List.mem_filter.mp hp).2
    simpa using this
  · intro imposter him hfn
    simp only [repoGet, him, hfn]

/-- C10 counterexample: `cRepo` holds imposter 1 only in the shared store;
`exists 1` is false as the claim says, but `get 1` does not return the
imposter — it rejects with the `rehydrate` TypeError, refuting the
claim's final clause. -/
theorem exists_get_mismatch :
    repoExists cRepo 1 = false ∧
    repoGet cRepo 1 = .error ("TypeError: Cannot convert undefined or null to object") :=
  ⟨rfl, rfl⟩

/-- C10 witness: the amended behavior at the concrete state `cRepo`. -/
theorem exists_in_memory_spec_witness :
    repoExists (repoShutdown cRepo 1) 1 = false ∧
    repoGet cRepo 1 = .error ("TypeError: Cannot convert undefined or null to object") :=
  ⟨(exists_in_memory_spec cRepo 1 wReq).2.2.2.1,
   (exists_in_memory_spec cRepo 1 wReq).2.2.2.2 cImp rfl rfl⟩

/-- C8 witness: a self-published message is filtered out and a message
from another client is delivered with its payload. -/
theorem pubsub_self_filter_witness :
    wrapCallbackFn ("self") (fun n : Nat => n + 1) (publishData ("self") 5) = none ∧
    wrapCallbackFn ("self") (fun n : Nat => n + 1) (publishData ("other") 5) = some 6 :=
  ⟨(pubsub_self_filter ("self") ("other") 5 (fun n : Nat => n + 1)).2.1,
   (pubsub_self_filter ("self") ("other") 5 (fun n : Nat => n + 1)).2.2 (by decide)⟩

end MountebankRedis
